import Mathlib

/-! BME280 weather-widget driver: period state machine, snapshot read, open.

A shallow embedding of `src/module/bme280_driver.c`.

* Machine integers are `Int` with explicit two's-complement wrapping.  `int` is
  32 bits wide.  `long` (the type of both fields of `struct timespec`) is as wide
  as the target's machine word; the width is the parameter `Arch`.
* Kernel code is built with wrapping signed arithmetic, so `++`, `*` and `+`
  are wrapped into the range of their type.
* C's `/` and `%` truncate towards zero: `Int.tdiv` and `Int.tmod`.
* Kernel services the driver calls (clock, I2C transfers, GPIO, `printk`,
  `copy_to_user`) are either inputs of the embedded function (what the service
  answers) or entries of the trace of effects it returns (what the driver asks).
-/

namespace BME280

/-! ## Machine integers -/

/-- Width of the C type `long` on the target: 32 bits or 64 bits. -/
inductive Arch where
  | ilp32
  | lp64
deriving DecidableEq, Repr

/-- Number of values of a `long`: `2 ^ 32` or `2 ^ 64`. -/
def long_modulus : Arch → Int
  | .ilp32 => 4294967296
  | .lp64 => 18446744073709551616

/-- Two's-complement wrap of a mathematical integer into a signed type with `m` values. -/
def wrap_signed (m : Int) (x : Int) : Int :=
  (x + m / 2) % m - m / 2

/-- Wrap into `int` (32 bits). -/
def int_wrap (x : Int) : Int :=
  wrap_signed 4294967296 x

/-- Wrap into `long`. -/
def long_wrap (a : Arch) (x : Int) : Int :=
  wrap_signed (long_modulus a) x

/-- Largest `int`. -/
def INT_MAX : Int := 2147483647

/-! ## Time -/

/-- The kernel's `struct timespec { long tv_sec; long tv_nsec; }`. -/
structure timespec where
  tv_sec : Int
  tv_nsec : Int
deriving DecidableEq, Repr

/-- Nanoseconds in a second, the kernel's `NSEC_PER_SEC`. -/
def NSEC_PER_SEC : Int := 1000000000

/-- Kernel helper `set_normalized_timespec(ts, sec, nsec)`: it adds or removes whole
seconds (`while (nsec >= NSEC_PER_SEC) { nsec -= NSEC_PER_SEC; ++sec; }` and
`while (nsec < 0) { nsec += NSEC_PER_SEC; --sec; }`) until `0 <= nsec < NSEC_PER_SEC`.
The two loops are written in closed form: floor division counts their iterations. -/
def set_normalized_timespec (a : Arch) (sec nsec : Int) : timespec :=
  { tv_sec := long_wrap a (sec + nsec / NSEC_PER_SEC), tv_nsec := nsec % NSEC_PER_SEC }

/-- Kernel helper `timespec_sub(lhs, rhs)`:
`set_normalized_timespec(&d, lhs.tv_sec - rhs.tv_sec, lhs.tv_nsec - rhs.tv_nsec)`. -/
def timespec_sub (a : Arch) (lhs rhs : timespec) : timespec :=
  set_normalized_timespec a (long_wrap a (lhs.tv_sec - rhs.tv_sec))
    (long_wrap a (lhs.tv_nsec - rhs.tv_nsec))

/-- A clock reading as `getnstimeofday` produces it: `0 <= tv_nsec < NSEC_PER_SEC`. -/
def timespec.normalised (t : timespec) : Prop :=
  0 ≤ t.tv_nsec ∧ t.tv_nsec < NSEC_PER_SEC

instance (t : timespec) : Decidable t.normalised := by
  unfold timespec.normalised; infer_instance

/-- Exact time in nanoseconds from clock reading `t0` to clock reading `t1`. -/
def elapsed_ns (t0 t1 : timespec) : Int :=
  (t1.tv_sec - t0.tv_sec) * NSEC_PER_SEC + (t1.tv_nsec - t0.tv_nsec)

/-! ## Period state machine (`period_irq_handler`) -/

/-- Source: `static const int period_start_ms = 2000;` -/
def period_start_ms : Int := 2000

/-- Source: `static const int period_divisor = 2;` -/
def period_divisor : Int := 2

/-- Source: `static const int max_step_count = 4;` -/
def max_step_count : Int := 4

/-- Return values of an interrupt handler. -/
inductive irqreturn where
  | IRQ_NONE
  | IRQ_HANDLED
deriving DecidableEq, Repr

/-- The file-scope variables read and written by `period_irq_handler`. -/
structure HandlerState where
  period_ms : Int
  button_pressed : Int
  ts_last : timespec
  ts_current : timespec
  ts_diff : timespec
deriving DecidableEq, Repr

/-- State once the module is loaded: `period_ms = 2000`, `button_pressed = 0`, `ts_last`
set by `getnstimeofday(&ts_last)` in `bme280_init` (reading `t0`); `ts_current` and
`ts_diff` are zero-initialised statics. -/
def HandlerState.init (t0 : timespec) : HandlerState :=
  { period_ms := 2000, button_pressed := 0, ts_last := t0,
    ts_current := ⟨0, 0⟩, ts_diff := ⟨0, 0⟩ }

/-- The debounce expression `ts_diff.tv_sec*1000 + ts_diff.tv_nsec/1000000`, computed
in `long`. -/
def diff_ms (a : Arch) (d : timespec) : Int :=
  long_wrap a (long_wrap a (d.tv_sec * 1000) + Int.tdiv d.tv_nsec 1000000)

/-- Source: `period_irq_handler`.  `now` is what `getnstimeofday(&ts_current)` reads. -/
def period_irq_handler (a : Arch) (now : timespec) (s : HandlerState) :
    irqreturn × HandlerState :=
  let s1 := { s with ts_current := now }
  let s2 := { s1 with ts_diff := timespec_sub a s1.ts_current s1.ts_last }
  if diff_ms a s2.ts_diff < 250 then
    (irqreturn.IRQ_NONE, s2)
  else
    let s3 := { s2 with ts_last := s2.ts_current }
    let s4 := { s3 with button_pressed := int_wrap (s3.button_pressed + 1) }
    if Int.tmod s4.button_pressed max_step_count ≠ 0 then
      (irqreturn.IRQ_HANDLED, { s4 with period_ms := Int.tdiv s4.period_ms period_divisor })
    else
      (irqreturn.IRQ_HANDLED, { s4 with period_ms := period_start_ms })

/-- State after the handler has run once for each clock reading of `nows`, in order. -/
def run_edges (a : Arch) : List timespec → HandlerState → HandlerState
  | [], s => s
  | now :: rest, s => run_edges a rest (period_irq_handler a now s).2

/-- Number of edges of `nows` the handler accepted (answered `IRQ_HANDLED`). -/
def accepted_edges (a : Arch) : List timespec → HandlerState → Nat
  | [], _ => 0
  | now :: rest, s =>
    (if (period_irq_handler a now s).1 = irqreturn.IRQ_HANDLED then 1 else 0)
      + accepted_edges a rest (period_irq_handler a now s).2

/-- Period the specification gives after `n` accepted edges: `2000` when `n mod 4 = 0`
and `2000 / 2 ^ (n mod 4)` otherwise. -/
def spec_period (n : Nat) : Int :=
  if n % 4 = 0 then 2000 else 2000 / 2 ^ (n % 4)

/-- A clock reading `ms` milliseconds after the epoch. -/
def at_ms (ms : Nat) : timespec :=
  { tv_sec := (ms / 1000 : Nat), tv_nsec := ((ms % 1000 : Nat) : Int) * 1000000 }

/-! ## Attribute read (`period_ms_show`) -/

/-- ASCII digit for `d < 10`: `'0' + d`. -/
def digit_char (d : Nat) : Char :=
  Char.ofNat (48 + d)

/-- Decimal digits of `n`, least significant first, by repeated division by ten, the way
the kernel's number formatter produces them; `fuel` bounds the number of digits. -/
def dec_digits_rev : Nat → Nat → List Nat
  | 0, _ => []
  | fuel + 1, n => (n % 10) :: (if n / 10 = 0 then [] else dec_digits_rev fuel (n / 10))

/-- Conversion `%d` of `sprintf`: an optional minus sign, then the decimal digits of the
magnitude, most significant first, no padding. -/
def format_d (x : Int) : List Char :=
  (if x < 0 then ['-'] else [])
    ++ ((dec_digits_rev (x.natAbs + 1) x.natAbs).reverse.map digit_char)

/-- Source: `period_ms_show`, `return sprintf(buf, "%d\n", period_ms);`.  The pair is the
return value (the number of characters written) and the text placed in `buf`. -/
def period_ms_show (period_ms : Int) : Int × List Char :=
  let text := format_d period_ms ++ ['\n']
  ((text.length : Int), text)

/-- Reading of a run of ASCII digits, most significant first, onto the accumulator `acc`;
`none` when a character is not a digit. -/
def parse_digits (acc : Nat) : List Char → Option Nat
  | [] => some acc
  | c :: cs =>
    if 48 ≤ c.toNat ∧ c.toNat ≤ 57 then parse_digits (acc * 10 + (c.toNat - 48)) cs else none

/-- Reading of a text as a decimal integer: an optional minus sign followed by at least
one digit and nothing else. -/
def parse_decimal (cs : List Char) : Option Int :=
  match cs with
  | [] => none
  | c :: rest =>
    if c = '-' then
      (if rest.isEmpty then none
       else
        match parse_digits 0 rest with
        | some n => some (-(n : Int))
        | none => none)
    else
      match parse_digits 0 (c :: rest) with
      | some n => some (n : Int)
      | none => none

/-- Value of a list of decimal digits, least significant first. -/
def lsb_value : List Nat → Nat
  | [] => 0
  | d :: ds => d + 10 * lsb_value ds

/-! ## Kernel services seen by the file operations -/

/-- A byte, the kernel's `u8`. -/
abbrev u8 := Fin 256

/-- Severities of `printk` used by the driver. -/
inductive loglevel where
  | KERN_ALERT
  | KERN_ERR
  | KERN_WARNING
  | KERN_INFO
deriving DecidableEq, Repr

/-- What a file operation asks of the kernel, in program order. -/
inductive Effect where
  | i2c_new_device (adapter_nr addr : Nat)
  | i2c_write_byte (command value : Nat)
  | i2c_read_block (command length : Nat)
  | gpio_set_value (gpio value : Nat)
  | schedule_timeout (ticks : Nat)
  | copy_to_user (count : Nat)
  | printk (level : loglevel) (text : String)
deriving DecidableEq, Repr

/-- An I2C client as `i2c_new_device` hands it out. -/
structure i2c_client where
  adapter_nr : Nat
  addr : Nat
deriving DecidableEq, Repr

/-- Source: `struct bme280_dev`; `none` is a NULL `i2c_client` pointer. -/
structure bme280_dev where
  i2c_client : Option i2c_client
deriving DecidableEq, Repr

/-- A call that does not return: the kernel stops it at a NULL pointer dereference. -/
inductive Fault where
  | null_dereference
deriving DecidableEq, Repr

/-- Answer of the bus to one SMBus block read: a negative errno, or the bytes read. -/
inductive smbus_result where
  | failed (status : Int)
  | done (block : List u8)
deriving DecidableEq, Repr

/-- Byte copy `memcpy(dst + off, src, n)` with `n` the length of `src`, on a byte array
held as a list. -/
def poke (dst : List u8) (off : Nat) (src : List u8) : List u8 :=
  dst.take off ++ src ++ dst.drop (off + src.length)

/-- Kernel helper `i2c_smbus_read_i2c_block_data(client, command, length, values)` with
`values = data + off`: it reads `client->adapter` (a fault when `client` is NULL), runs the
transfer, returns the negative status without touching `values` when the transfer failed,
and otherwise copies the bytes read, at most `length`, to `values` and returns their
number. -/
def i2c_smbus_read_i2c_block_data (bus : i2c_client → Nat → Nat → smbus_result)
    (client : Option i2c_client) (command length : Nat) (data : List u8) (off : Nat) :
    Except Fault (Int × List u8) :=
  match client with
  | none => Except.error Fault.null_dereference
  | some c =>
    match bus c command length with
    | smbus_result.failed status => Except.ok (status, data)
    | smbus_result.done block =>
      Except.ok (((block.take length).length : Int), poke data off (block.take length))

/-- Kernel helper `i2c_smbus_write_byte_data(client, command, value)`: it reads
`client->adapter` (a fault when `client` is NULL) and returns the status of the
transfer, negative on failure. -/
def i2c_smbus_write_byte_data (bus : i2c_client → Nat → Nat → Int)
    (client : Option i2c_client) (command value : Nat) : Except Fault Int :=
  match client with
  | none => Except.error Fault.null_dereference
  | some c => Except.ok (bus c command value)

/-! ## Constants of the source -/

/-- Source: `#define DATA_SIZE 40` -/
def DATA_SIZE : Nat := 40
/-- Source: `#define BME280_I2C_BUS_ADDRESS 0x76` -/
def BME280_I2C_BUS_ADDRESS : Nat := 0x76
/-- Source: `#define BME280_DATA_ADDRESS 0xF7` -/
def BME280_DATA_ADDRESS : Nat := 0xF7
/-- Source: `#define BME280_CAL1_ADDRESS 0x88` -/
def BME280_CAL1_ADDRESS : Nat := 0x88
/-- Source: `#define BME280_CAL2_ADDRESS 0xA1` -/
def BME280_CAL2_ADDRESS : Nat := 0xA1
/-- Source: `#define BME280_CAL3_ADDRESS 0xE1` -/
def BME280_CAL3_ADDRESS : Nat := 0xE1
/-- Source: `#define BME280_CTRL_HUMIDITY 0xF2` -/
def BME280_CTRL_HUMIDITY : Nat := 0xF2
/-- Source: `#define BME280_CTRL 0xF4` -/
def BME280_CTRL : Nat := 0xF4
/-- Source: `#define CTRL_HUM_DATA 2` -/
def CTRL_HUM_DATA : Nat := 2
/-- Source: `#define CTRL_DATA 73` -/
def CTRL_DATA : Nat := 73
/-- Source: `static int i2c_bus_number = 1;` -/
def i2c_bus_number : Nat := 1

/-! ## Open (`bme280_open`) -/

/-- What the kernel answers during `bme280_open`: the client `i2c_new_device` returns
(`none` for NULL) and the status of each register write. -/
structure OpenEnv where
  new_device : Option i2c_client
  write_byte : i2c_client → Nat → Nat → Int

/-- What `bme280_open` leaves behind when it returns. -/
structure OpenResult where
  ret : Int
  private_data : bme280_dev
  effects : List Effect
deriving DecidableEq, Repr

/-- Source: `bme280_open`. -/
def bme280_open (env : OpenEnv) : Except Fault OpenResult := do
  let e0 := [Effect.printk loglevel.KERN_INFO "BME280: OPEN called"]
  let i2c_client := env.new_device
  let e1 := e0 ++ [Effect.i2c_new_device i2c_bus_number BME280_I2C_BUS_ADDRESS]
  let dev : bme280_dev := { i2c_client := i2c_client }
  let err ← i2c_smbus_write_byte_data env.write_byte dev.i2c_client
    BME280_CTRL_HUMIDITY CTRL_HUM_DATA
  let e2 := e1 ++ [Effect.i2c_write_byte BME280_CTRL_HUMIDITY CTRL_HUM_DATA]
    ++ (if err < 0 then
          [Effect.printk loglevel.KERN_WARNING
            "BME280: Failed to write: configuration Humidity Oversampling"]
        else [])
  let err ← i2c_smbus_write_byte_data env.write_byte dev.i2c_client BME280_CTRL CTRL_DATA
  let e3 := e2 ++ [Effect.i2c_write_byte BME280_CTRL CTRL_DATA]
    ++ (if err < 0 then
          [Effect.printk loglevel.KERN_WARNING
            "BME280: Failed to write: configuration Temp, Pres Oversampling + CTRL"]
        else [])
  return { ret := 0, private_data := dev, effects := e3 }

/-- The register writes among the effects, as (register, value), in order. -/
def i2c_writes : List Effect → List (Nat × Nat)
  | [] => []
  | Effect.i2c_write_byte command value :: rest => (command, value) :: i2c_writes rest
  | _ :: rest => i2c_writes rest

/-! ## Snapshot read (`bme280_read`) -/

/-- What the kernel answers during `bme280_read`: the outcome of each block read and the
number of bytes `copy_to_user` could not copy out of the 40 requested. -/
structure ReadEnv where
  block_read : i2c_client → Nat → Nat → smbus_result
  not_copied : Fin 41

/-- What `bme280_read` leaves behind when it returns; `user_buf` holds the bytes that
reached the user buffer. -/
structure ReadResult where
  ret : Int
  user_buf : List u8
  effects : List Effect
deriving DecidableEq, Repr

/-- Source: `bme280_read`.  `gpioLED` is the module parameter, `buf_length` the length the
caller asked for (the source does not look at it). -/
def bme280_read (gpioLED : Nat) (env : ReadEnv) (dev : bme280_dev) (_buf_length : Nat) :
    Except Fault ReadResult := do
  let data : List u8 := List.replicate DATA_SIZE 0
  let e0 := [Effect.gpio_set_value gpioLED 1]
  let (bytes_read, data) ←
    i2c_smbus_read_i2c_block_data env.block_read dev.i2c_client BME280_CAL1_ADDRESS 24 data 0
  let e1 := e0 ++ [Effect.i2c_read_block BME280_CAL1_ADDRESS 24]
    ++ (if bytes_read < 0 then
          [Effect.printk loglevel.KERN_ERR "BME280: read - failed read cal from 0x88"]
        else [])
  let (bytes_read, data) ←
    i2c_smbus_read_i2c_block_data env.block_read dev.i2c_client BME280_CAL2_ADDRESS 1 data 24
  let e2 := e1 ++ [Effect.i2c_read_block BME280_CAL2_ADDRESS 1]
    ++ (if bytes_read < 0 then
          [Effect.printk loglevel.KERN_ERR "BME280: read - failed read cal from 0xA1"]
        else [])
  let (bytes_read, data) ←
    i2c_smbus_read_i2c_block_data env.block_read dev.i2c_client BME280_CAL3_ADDRESS 7 data 25
  let e3 := e2 ++ [Effect.i2c_read_block BME280_CAL3_ADDRESS 7]
    ++ (if bytes_read < 0 then
          [Effect.printk loglevel.KERN_ERR "BME280: read - failed read cal from 0xE1"]
        else [])
  let (bytes_read, data) ←
    i2c_smbus_read_i2c_block_data env.block_read dev.i2c_client BME280_DATA_ADDRESS 8 data 32
  let e4 := e3 ++ [Effect.i2c_read_block BME280_DATA_ADDRESS 8]
    ++ (if bytes_read < 0 then
          [Effect.printk loglevel.KERN_ALERT "BME280: read - failed read data from 0xF7"]
        else [])
  let e5 := e4 ++ [Effect.schedule_timeout 16]
  let not_copied_bytes : Int := (env.not_copied.val : Int)
  let e6 := e5 ++ [Effect.copy_to_user DATA_SIZE]
  if not_copied_bytes ≠ 0 then
    return { ret := 0, user_buf := data.take (DATA_SIZE - env.not_copied.val),
             effects := e6 ++ [Effect.printk loglevel.KERN_ALERT
               "BME280: `copy_to_user` failed not copied bytes: %d"] }
  else
    let e7 := e6 ++ [Effect.printk loglevel.KERN_INFO
      "BME280: succeded copy data to user space"]
    let e8 := e7 ++ [Effect.gpio_set_value gpioLED 0]
    return { ret := (DATA_SIZE : Int), user_buf := data, effects := e8 }

/-- The values written to GPIO line `gpio` among the effects, in order. -/
def gpio_writes (gpio : Nat) : List Effect → List Nat
  | [] => []
  | Effect.gpio_set_value g value :: rest =>
    if g = gpio then value :: gpio_writes gpio rest else gpio_writes gpio rest
  | _ :: rest => gpio_writes gpio rest

/-- Level of GPIO line `gpio` after the effects, from level `level` before them. -/
def gpio_level (gpio : Nat) (level : Nat) (effects : List Effect) : Nat :=
  (gpio_writes gpio effects).getLastD level

/-- The window of the payload a block read fills: the bytes read, or `length` zero bytes
when the read failed. -/
def window (r : smbus_result) (length : Nat) : List u8 :=
  match r with
  | smbus_result.failed _ => List.replicate length 0
  | smbus_result.done block => block

/-- A bus that answers each of the four registers with a fixed byte, the right number of
times, except for the registers listed in `failing`, whose read fails with `-EIO`. -/
def mock_bus (failing : List Nat) (_c : i2c_client) (command length : Nat) : smbus_result :=
  if command ∈ failing then smbus_result.failed (-5)
  else if command = 0x88 then smbus_result.done (List.replicate length 0x11)
  else if command = 0xA1 then smbus_result.done (List.replicate length 0x22)
  else if command = 0xE1 then smbus_result.done (List.replicate length 0x33)
  else smbus_result.done (List.replicate length 0x44)

/-- Status `i2c_smbus_read_i2c_block_data` returns for bus answer `r`. -/
def block_status (r : smbus_result) (length : Nat) : Int :=
  match r with
  | smbus_result.failed status => status
  | smbus_result.done block => ((block.take length).length : Int)

/-- Contents of the byte array after `i2c_smbus_read_i2c_block_data` for bus answer `r`. -/
def fill (r : smbus_result) (length : Nat) (data : List u8) (off : Nat) : List u8 :=
  match r with
  | smbus_result.failed _ => data
  | smbus_result.done block => poke data off (block.take length)

/-- The record `printk` leaves when a call with status `status` failed, and nothing
otherwise. -/
def log_if_failed (status : Int) (level : loglevel) (text : String) : List Effect :=
  if status < 0 then [Effect.printk level text] else []

/-- The byte array `bme280_read` has assembled when it reaches `copy_to_user`. -/
def assembled (bus : i2c_client → Nat → Nat → smbus_result) (c : i2c_client) : List u8 :=
  fill (bus c BME280_DATA_ADDRESS 8) 8
    (fill (bus c BME280_CAL3_ADDRESS 7) 7
      (fill (bus c BME280_CAL2_ADDRESS 1) 1
        (fill (bus c BME280_CAL1_ADDRESS 24) 24 (List.replicate DATA_SIZE 0) 0) 24) 25) 32

/-- The effects of `bme280_read` between switching the LED on and the outcome of
`copy_to_user`. -/
def read_effects (bus : i2c_client → Nat → Nat → smbus_result) (c : i2c_client) :
    List Effect :=
  [Effect.i2c_read_block BME280_CAL1_ADDRESS 24]
    ++ log_if_failed (block_status (bus c BME280_CAL1_ADDRESS 24) 24) loglevel.KERN_ERR
        "BME280: read - failed read cal from 0x88"
    ++ [Effect.i2c_read_block BME280_CAL2_ADDRESS 1]
    ++ log_if_failed (block_status (bus c BME280_CAL2_ADDRESS 1) 1) loglevel.KERN_ERR
        "BME280: read - failed read cal from 0xA1"
    ++ [Effect.i2c_read_block BME280_CAL3_ADDRESS 7]
    ++ log_if_failed (block_status (bus c BME280_CAL3_ADDRESS 7) 7) loglevel.KERN_ERR
        "BME280: read - failed read cal from 0xE1"
    ++ [Effect.i2c_read_block BME280_DATA_ADDRESS 8]
    ++ log_if_failed (block_status (bus c BME280_DATA_ADDRESS 8) 8) loglevel.KERN_ALERT
        "BME280: read - failed read data from 0xF7"
    ++ [Effect.schedule_timeout 16, Effect.copy_to_user DATA_SIZE]

/-! ## Facts about the machine arithmetic -/

theorem tmod_four_ne_zero_iff (x : Int) : Int.tmod x 4 ≠ 0 ↔ x % 4 ≠ 0 := by
  rw [Ne, Ne, ← Int.dvd_iff_tmod_eq_zero, ← Int.dvd_iff_emod_eq_zero]

theorem int_wrap_emod_four (x : Int) : int_wrap x % 4 = x % 4 := by
  unfold int_wrap wrap_signed
  omega

theorem int_wrap_succ (x : Int) : int_wrap (int_wrap x + 1) = int_wrap (x + 1) := by
  unfold int_wrap wrap_signed
  omega

theorem int_wrap_of_lt_max (x : Int) (hlo : -2147483648 ≤ x) (hhi : x < INT_MAX) :
    int_wrap (x + 1) = x + 1 := by
  unfold INT_MAX at hhi
  unfold int_wrap wrap_signed
  omega

theorem spec_period_cases (n : Nat) :
    (n % 4 = 0 ∧ spec_period n = 2000) ∨ (n % 4 = 1 ∧ spec_period n = 1000) ∨
    (n % 4 = 2 ∧ spec_period n = 500) ∨ (n % 4 = 3 ∧ spec_period n = 250) := by
  have h : n % 4 = 0 ∨ n % 4 = 1 ∨ n % 4 = 2 ∨ n % 4 = 3 := by omega
  rcases h with h | h | h | h <;> simp [spec_period, h]

theorem spec_period_succ (n : Nat) :
    spec_period (n + 1) =
      if ((n : Int) + 1) % 4 ≠ 0 then Int.tdiv (spec_period n) 2 else 2000 := by
  rcases spec_period_cases n with ⟨c, e⟩ | ⟨c, e⟩ | ⟨c, e⟩ | ⟨c, e⟩
  · have c1 : (n + 1) % 4 = 1 := by omega
    have hc : ((n : Int) + 1) % 4 ≠ 0 := by omega
    rw [if_pos hc, e]
    simp [spec_period, c1]
    rfl
  · have c1 : (n + 1) % 4 = 2 := by omega
    have hc : ((n : Int) + 1) % 4 ≠ 0 := by omega
    rw [if_pos hc, e]
    simp [spec_period, c1]
    rfl
  · have c1 : (n + 1) % 4 = 3 := by omega
    have hc : ((n : Int) + 1) % 4 ≠ 0 := by omega
    rw [if_pos hc, e]
    simp [spec_period, c1]
    rfl
  · have c1 : (n + 1) % 4 = 0 := by omega
    have hc : ¬ (((n : Int) + 1) % 4 ≠ 0) := by omega
    rw [if_neg hc]
    simp [spec_period, c1]

/-- The millisecond count the handler computes is the exact elapsed time rounded down
to whole milliseconds, as long as that count fits a 32-bit `long`. -/
theorem diff_ms_exact (a : Arch) (t0 t1 : timespec) (h0 : t0.normalised) (h1 : t1.normalised)
    (hlo : -2147483648000000 ≤ elapsed_ns t0 t1) (hhi : elapsed_ns t0 t1 < 2147483648000000) :
    diff_ms a (timespec_sub a t1 t0) = elapsed_ns t0 t1 / 1000000 := by
  obtain ⟨h0a, h0b⟩ := h0
  obtain ⟨h1a, h1b⟩ := h1
  unfold elapsed_ns at *
  unfold NSEC_PER_SEC at *
  unfold diff_ms timespec_sub set_normalized_timespec
  rw [Int.tdiv_eq_ediv (Int.emod_nonneg _ (by unfold NSEC_PER_SEC; decide)) (by decide)]
  cases a <;> simp only [long_wrap, wrap_signed, long_modulus, NSEC_PER_SEC] <;> omega

/-! ## The handler, one edge at a time -/

/-- A rejected edge: only `ts_current` and `ts_diff` are written. -/
theorem handler_rejects (a : Arch) (now : timespec) (s : HandlerState)
    (h : diff_ms a (timespec_sub a now s.ts_last) < 250) :
    period_irq_handler a now s =
      (irqreturn.IRQ_NONE,
        { s with ts_current := now, ts_diff := timespec_sub a now s.ts_last }) := by
  simp [period_irq_handler, h]

/-- An accepted edge: the result, the new time stamp and the new counter. -/
theorem handler_accepts (a : Arch) (now : timespec) (s : HandlerState)
    (h : ¬ diff_ms a (timespec_sub a now s.ts_last) < 250) :
    (period_irq_handler a now s).1 = irqreturn.IRQ_HANDLED ∧
    (period_irq_handler a now s).2.ts_last = now ∧
    (period_irq_handler a now s).2.button_pressed = int_wrap (s.button_pressed + 1) ∧
    (period_irq_handler a now s).2.period_ms =
      (if Int.tmod (int_wrap (s.button_pressed + 1)) 4 ≠ 0 then Int.tdiv s.period_ms 2
       else 2000) := by
  simp only [period_irq_handler, h, if_false, max_step_count, period_divisor, period_start_ms]
  split <;> simp_all

/-- One call of the handler keeps the link between the counter, the period and the
number `n` of edges accepted so far. -/
theorem handler_step (a : Arch) (now : timespec) (s : HandlerState) (n : Nat)
    (hb : s.button_pressed = int_wrap n) (hp : s.period_ms = spec_period n) :
    (period_irq_handler a now s).2.button_pressed =
        int_wrap ((n + (if (period_irq_handler a now s).1 = irqreturn.IRQ_HANDLED then 1 else 0)
          : Nat)) ∧
    (period_irq_handler a now s).2.period_ms =
        spec_period (n + (if (period_irq_handler a now s).1 = irqreturn.IRQ_HANDLED then 1 else 0)) := by
  by_cases h : diff_ms a (timespec_sub a now s.ts_last) < 250
  · rw [handler_rejects a now s h]
    simp [hb, hp]
  · obtain ⟨h1, _, h3, h4⟩ := handler_accepts a now s h
    rw [h1, h3, h4, hb, hp, int_wrap_succ]
    simp only [if_true, Nat.cast_add, Nat.cast_one, true_and]
    have hm : int_wrap ((n : Int) + 1) % 4 = ((n : Int) + 1) % 4 := int_wrap_emod_four _
    rw [spec_period_succ n]
    by_cases hc : ((n : Int) + 1) % 4 ≠ 0
    · rw [if_pos hc, if_pos ((tmod_four_ne_zero_iff _).mpr (by rw [hm]; exact hc))]
    · rw [if_neg hc, if_neg (fun h => hc (by rw [← hm]; exact (tmod_four_ne_zero_iff _).mp h))]

/-- Any number of calls of the handler keep that link: after the calls the counter is the
wrapped number of accepted edges and the period is the one the recurrence gives. -/
theorem run_edges_spec (a : Arch) (nows : List timespec) :
    ∀ (s : HandlerState) (n : Nat), s.button_pressed = int_wrap n →
      s.period_ms = spec_period n →
      (run_edges a nows s).button_pressed = int_wrap ((n + accepted_edges a nows s : Nat)) ∧
      (run_edges a nows s).period_ms = spec_period (n + accepted_edges a nows s) := by
  induction nows with
  | nil => intro s n hb hp; simpa [run_edges, accepted_edges] using ⟨hb, hp⟩
  | cons now rest ih =>
    intro s n hb hp
    obtain ⟨hb1, hp1⟩ := handler_step a now s n hb hp
    have := ih _ _ hb1 hp1
    simpa [run_edges, accepted_edges, Nat.add_assoc] using this

/-- From the state of a freshly loaded module the period follows the recurrence. -/
theorem run_edges_init (a : Arch) (t0 : timespec) (nows : List timespec) :
    (run_edges a nows (HandlerState.init t0)).period_ms =
      spec_period (accepted_edges a nows (HandlerState.init t0)) := by
  have hb : (HandlerState.init t0).button_pressed = int_wrap ((0 : Nat) : Int) := by
    show (0 : Int) = int_wrap 0
    decide
  have hp : (HandlerState.init t0).period_ms = spec_period 0 := by
    show (2000 : Int) = spec_period 0
    decide
  have h := (run_edges_spec a nows (HandlerState.init t0) 0 hb hp).2
  rwa [Nat.zero_add] at h

/-- Within the range where the millisecond count fits a 32-bit `long`, an edge at least
250 ms after the last accepted one is accepted. -/
theorem accepts_when_no_overflow (a : Arch) (now : timespec) (s : HandlerState)
    (hl : s.ts_last.normalised) (hn : now.normalised)
    (h : 250000000 ≤ elapsed_ns s.ts_last now)
    (hhi : elapsed_ns s.ts_last now < 2147483648000000) :
    (period_irq_handler a now s).1 = irqreturn.IRQ_HANDLED ∧
    (period_irq_handler a now s).2.ts_last = now ∧
    (period_irq_handler a now s).2.button_pressed = int_wrap (s.button_pressed + 1) := by
  have hd := diff_ms_exact a s.ts_last now hl hn (by omega) hhi
  have hge : ¬ diff_ms a (timespec_sub a now s.ts_last) < 250 := by
    rw [hd]; omega
  obtain ⟨h1, h2, h3, _⟩ := handler_accepts a now s hge
  exact ⟨h1, h2, h3⟩

/-! ## The period state machine: claims -/

/-- C1 (period recurrence).  Start from the state of a freshly loaded module
(`period_ms = 2000`, `button_pressed = 0`, any `ts_last`) and let the handler run on any
sequence of clock readings, rejected edges anywhere among the accepted ones.  With `n` the
number of accepted edges, `period_ms` is `2000` when `n mod 4 = 0` and `2000 / 2 ^ (n mod 4)`
otherwise; these values are `2000, 1000, 500, 250` for `n mod 4 = 0, 1, 2, 3`. -/
theorem period_after_accepted_edges (a : Arch) (t0 : timespec) (nows : List timespec) :
    (run_edges a nows (HandlerState.init t0)).period_ms =
      (if accepted_edges a nows (HandlerState.init t0) % 4 = 0 then 2000
       else 2000 / 2 ^ (accepted_edges a nows (HandlerState.init t0) % 4)) ∧
    (run_edges a nows (HandlerState.init t0)).period_ms =
      [2000, 1000, 500, 250].getD (accepted_edges a nows (HandlerState.init t0) % 4) 0 := by
  have h : _ = spec_period _ := run_edges_init a t0 nows
  refine ⟨h, ?_⟩
  rw [h]
  rcases spec_period_cases (accepted_edges a nows (HandlerState.init t0))
    with ⟨c, e⟩ | ⟨c, e⟩ | ⟨c, e⟩ | ⟨c, e⟩ <;> rw [e, c] <;> rfl

/-- C9 (period invariant).  `period_ms` is one of `2000, 1000, 500, 250` in the state of a
freshly loaded module and in every state reached from it by any finite sequence of handler
calls, accepted or rejected (`nows = []` is the initial state itself). -/
theorem period_ms_invariant (a : Arch) (t0 : timespec) (nows : List timespec) :
    (run_edges a nows (HandlerState.init t0)).period_ms = 2000 ∨
    (run_edges a nows (HandlerState.init t0)).period_ms = 1000 ∨
    (run_edges a nows (HandlerState.init t0)).period_ms = 500 ∨
    (run_edges a nows (HandlerState.init t0)).period_ms = 250 := by
  rw [run_edges_init a t0 nows]
  rcases spec_period_cases (accepted_edges a nows (HandlerState.init t0))
    with ⟨_, e⟩ | ⟨_, e⟩ | ⟨_, e⟩ | ⟨_, e⟩ <;> simp [e]

/-- Within the range where the millisecond count fits a 32-bit `long` (the clock reading
is no more than `2 ^ 31` ms behind `ts_last`), an edge less than 250 ms after the last
accepted one is answered `IRQ_NONE` and leaves `ts_last`, `button_pressed` and `period_ms`
as they were; when the state is the one left by an accepted edge, the two edges together
performed `button_pressed++` once. -/
theorem rejects_when_no_overflow (a : Arch) (now : timespec) (s : HandlerState)
    (hl : s.ts_last.normalised) (hn : now.normalised)
    (h0 : -2147483648000000 ≤ elapsed_ns s.ts_last now)
    (h : elapsed_ns s.ts_last now < 250000000) :
    (period_irq_handler a now s).1 = irqreturn.IRQ_NONE ∧
    (period_irq_handler a now s).2.ts_last = s.ts_last ∧
    (period_irq_handler a now s).2.button_pressed = s.button_pressed ∧
    (period_irq_handler a now s).2.period_ms = s.period_ms ∧
    (∀ (s0 : HandlerState) (t1 : timespec),
      period_irq_handler a t1 s0 = (irqreturn.IRQ_HANDLED, s) →
        (period_irq_handler a now s).2.button_pressed = int_wrap (s0.button_pressed + 1) ∧
        (-2147483648 ≤ s0.button_pressed → s0.button_pressed < INT_MAX →
          (period_irq_handler a now s).2.button_pressed = s0.button_pressed + 1)) := by
  have hd := diff_ms_exact a s.ts_last now hl hn h0 (by omega)
  have hlt : diff_ms a (timespec_sub a now s.ts_last) < 250 := by
    rw [hd]; omega
  rw [handler_rejects a now s hlt]
  refine ⟨rfl, rfl, rfl, rfl, ?_⟩
  intro s0 t1 hacc
  have hb : s.button_pressed = int_wrap (s0.button_pressed + 1) := by
    by_cases hq : diff_ms a (timespec_sub a t1 s0.ts_last) < 250
    · rw [handler_rejects a t1 s0 hq] at hacc
      cases hacc
    · have h3 := (handler_accepts a t1 s0 hq).2.2.1
      rw [hacc] at h3
      exact h3
  refine ⟨hb, ?_⟩
  intro hlo hhi
  show s.button_pressed = s0.button_pressed + 1
  rw [hb]
  exact int_wrap_of_lt_max _ hlo hhi

/-- C3 (debounce), the code at the failing inputs.  The clock is the settable wall clock,
so a reading can lie behind `ts_last`; its elapsed time is then negative, hence less than
250 ms.  With a 32-bit `long` a reading 2147484 s behind `ts_last` gives a product
`ts_diff.tv_sec*1000` below `LONG_MIN`; the wrapped count is 2147483296, not less than 250,
so the edge is answered `IRQ_HANDLED`: `button_pressed` goes from 0 to 1, `period_ms` from
2000 to 1000 and `ts_last` is set to the reading.  A 64-bit `long` does the same for a
reading 9223372036854776 s behind `ts_last`. -/
theorem backward_clock_edge_accepted :
    (elapsed_ns ⟨1700000000, 0⟩ ⟨1697852516, 0⟩ < 250000000 ∧
      period_irq_handler Arch.ilp32 ⟨1697852516, 0⟩ (HandlerState.init ⟨1700000000, 0⟩) =
        (irqreturn.IRQ_HANDLED,
          { period_ms := 1000, button_pressed := 1, ts_last := ⟨1697852516, 0⟩,
            ts_current := ⟨1697852516, 0⟩, ts_diff := ⟨-2147484, 0⟩ }) ∧
      diff_ms Arch.ilp32 ⟨-2147484, 0⟩ = 2147483296) ∧
    (elapsed_ns ⟨9223372036854776, 0⟩ ⟨0, 0⟩ < 250000000 ∧
      period_irq_handler Arch.lp64 ⟨0, 0⟩ (HandlerState.init ⟨9223372036854776, 0⟩) =
        (irqreturn.IRQ_HANDLED,
          { period_ms := 1000, button_pressed := 1, ts_last := ⟨0, 0⟩,
            ts_current := ⟨0, 0⟩, ts_diff := ⟨-9223372036854776, 0⟩ })) := by
  decide

/-- C2 (debounce boundary), the code at the failing inputs.  The millisecond count
`ts_diff.tv_sec*1000 + ts_diff.tv_nsec/1000000` is computed in `long`.  With a 32-bit
`long` an edge 2147484 s (just under 25 days) after the last accepted one gives a product
beyond `LONG_MAX`; the wrapped count is negative, so the edge is answered `IRQ_NONE` and
counter, period and `ts_last` stay as they were.  A 64-bit `long` does the same for a gap
of 9223372036854776 s. -/
theorem long_gap_edge_rejected :
    (250000000 ≤ elapsed_ns ⟨1700000000, 0⟩ ⟨1702147484, 0⟩ ∧
      period_irq_handler Arch.ilp32 ⟨1702147484, 0⟩ (HandlerState.init ⟨1700000000, 0⟩) =
        (irqreturn.IRQ_NONE,
          { period_ms := 2000, button_pressed := 0, ts_last := ⟨1700000000, 0⟩,
            ts_current := ⟨1702147484, 0⟩, ts_diff := ⟨2147484, 0⟩ }) ∧
      diff_ms Arch.ilp32 ⟨2147484, 0⟩ = -2147483296) ∧
    (250000000 ≤ elapsed_ns ⟨0, 0⟩ ⟨9223372036854776, 0⟩ ∧
      period_irq_handler Arch.lp64 ⟨9223372036854776, 0⟩ (HandlerState.init ⟨0, 0⟩) =
        (irqreturn.IRQ_NONE,
          { period_ms := 2000, button_pressed := 0, ts_last := ⟨0, 0⟩,
            ts_current := ⟨9223372036854776, 0⟩, ts_diff := ⟨9223372036854776, 0⟩ })) := by
  decide

/-! ## The file operations: effects and data -/

theorem gpio_writes_append (g : Nat) (xs ys : List Effect) :
    gpio_writes g (xs ++ ys) = gpio_writes g xs ++ gpio_writes g ys := by
  induction xs with
  | nil => rfl
  | cons x rest ih =>
    cases x with
    | gpio_set_value g1 v =>
      simp only [List.cons_append, gpio_writes]
      split <;> simp [ih]
    | _ => simp [gpio_writes, ih]

theorem i2c_writes_append (xs ys : List Effect) :
    i2c_writes (xs ++ ys) = i2c_writes xs ++ i2c_writes ys := by
  induction xs with
  | nil => rfl
  | cons x rest ih =>
    cases x <;> simp [i2c_writes, ih]

theorem read_block_eq (bus : i2c_client → Nat → Nat → smbus_result) (c : i2c_client)
    (command length : Nat) (data : List u8) (off : Nat) :
    i2c_smbus_read_i2c_block_data bus (some c) command length data off =
      Except.ok (block_status (bus c command length) length,
        fill (bus c command length) length data off) := by
  cases hr : bus c command length <;>
    simp [i2c_smbus_read_i2c_block_data, block_status, fill, hr]

theorem bme280_read_eq (gpioLED : Nat) (env : ReadEnv) (c : i2c_client) (n : Nat) :
    bme280_read gpioLED env { i2c_client := some c } n =
      Except.ok
        (if env.not_copied.val ≠ 0 then
          { ret := 0,
            user_buf := (assembled env.block_read c).take (DATA_SIZE - env.not_copied.val),
            effects := [Effect.gpio_set_value gpioLED 1] ++ read_effects env.block_read c
              ++ [Effect.printk loglevel.KERN_ALERT
                    "BME280: `copy_to_user` failed not copied bytes: %d"] }
        else
          { ret := 40,
            user_buf := assembled env.block_read c,
            effects := [Effect.gpio_set_value gpioLED 1] ++ read_effects env.block_read c
              ++ [Effect.printk loglevel.KERN_INFO "BME280: succeded copy data to user space",
                  Effect.gpio_set_value gpioLED 0] }) := by
  simp only [bme280_read, read_block_eq]
  by_cases h : env.not_copied.val = 0
  · simp [h, assembled, read_effects, log_if_failed, bind, Except.bind, pure, Except.pure, DATA_SIZE]
  · simp [h, assembled, read_effects, log_if_failed, bind, Except.bind, pure, Except.pure, DATA_SIZE]

theorem window_length (r : smbus_result) (len : Nat)
    (hr : ∀ b, r = smbus_result.done b → b.length = len) : (window r len).length = len := by
  cases r with
  | failed st => simp [window]
  | done b => simpa [window] using hr b rfl

/-- A block read into a zeroed window of the right size replaces exactly that window. -/
theorem fill_window (r : smbus_result) (len : Nat) (pre post : List u8) (off : Nat)
    (hoff : pre.length = off) (hr : ∀ b, r = smbus_result.done b → b.length = len) :
    fill r len (pre ++ (List.replicate len 0 ++ post)) off = pre ++ (window r len ++ post) := by
  cases r with
  | failed st => simp [fill, window]
  | done b =>
    have hb : b.length = len := hr b rfl
    subst hoff
    subst hb
    simp [fill, window, poke]

theorem assembled_eq (bus : i2c_client → Nat → Nat → smbus_result) (c : i2c_client)
    (hlen : ∀ command length block,
      bus c command length = smbus_result.done block → block.length = length) :
    assembled bus c =
      window (bus c BME280_CAL1_ADDRESS 24) 24 ++ (window (bus c BME280_CAL2_ADDRESS 1) 1 ++
        (window (bus c BME280_CAL3_ADDRESS 7) 7 ++ window (bus c BME280_DATA_ADDRESS 8) 8)) := by
  have l1 := window_length _ 24 (hlen BME280_CAL1_ADDRESS 24)
  have l2 := window_length _ 1 (hlen BME280_CAL2_ADDRESS 1)
  have l3 := window_length _ 7 (hlen BME280_CAL3_ADDRESS 7)
  have e0 : List.replicate DATA_SIZE (0 : u8) =
      [] ++ (List.replicate 24 0 ++ (List.replicate 1 0 ++ (List.replicate 7 0 ++
        (List.replicate 8 0 ++ [])))) := by decide
  unfold assembled
  rw [e0, fill_window _ 24 [] _ 0 rfl (hlen _ 24), List.nil_append,
    fill_window _ 1 _ _ 24 l1 (hlen _ 1), ← List.append_assoc,
    fill_window _ 7 _ _ 25 (by rw [List.length_append, l1, l2]) (hlen _ 7),
    ← List.append_assoc,
    fill_window _ 8 _ _ 32 (by rw [List.length_append, List.length_append, l1, l2, l3])
      (hlen _ 8)]
  simp

theorem gpio_writes_log_if_failed (g : Nat) (status : Int) (level : loglevel) (text : String) :
    gpio_writes g (log_if_failed status level text) = [] := by
  unfold log_if_failed
  split <;> rfl

theorem gpio_writes_read_effects (g : Nat) (bus : i2c_client → Nat → Nat → smbus_result)
    (c : i2c_client) : gpio_writes g (read_effects bus c) = [] := by
  simp [read_effects, gpio_writes_append, gpio_writes_log_if_failed, gpio_writes]

theorem four_windows (w1 w2 w3 w4 : List u8) (l1 : w1.length = 24) (l2 : w2.length = 1)
    (l3 : w3.length = 7) (l4 : w4.length = 8) :
    (w1 ++ (w2 ++ (w3 ++ w4))).length = 40 ∧
    (w1 ++ (w2 ++ (w3 ++ w4))).take 24 = w1 ∧
    ((w1 ++ (w2 ++ (w3 ++ w4))).drop 24).take 1 = w2 ∧
    ((w1 ++ (w2 ++ (w3 ++ w4))).drop 25).take 7 = w3 ∧
    ((w1 ++ (w2 ++ (w3 ++ w4))).drop 32).take 8 = w4 := by
  refine ⟨by simp [l1, l2, l3, l4], List.take_left' l1, ?_, ?_, ?_⟩
  · rw [List.drop_left' l1, List.take_left' l2]
  · rw [← List.append_assoc, List.drop_left' (by rw [List.length_append, l1, l2]),
      List.take_left' l3]
  · rw [← List.append_assoc, ← List.append_assoc,
      List.drop_left' (by rw [List.length_append, List.length_append, l1, l2, l3]),
      List.take_of_length_le (by rw [l4])]

/-- When `copy_to_user` copies everything, the LED line is written `1` then `0`. -/
theorem read_success_led_bracket (gpioLED : Nat) (bus : i2c_client → Nat → Nat → smbus_result)
    (c : i2c_client) (n : Nat) :
    ∃ r, bme280_read gpioLED { block_read := bus, not_copied := 0 }
        { i2c_client := some c } n = Except.ok r ∧
      gpio_writes gpioLED r.effects = [1, 0] ∧ gpio_level gpioLED 0 r.effects = 0 := by
  refine ⟨_, bme280_read_eq gpioLED _ c n, ?_⟩
  simp [gpio_level, gpio_writes_append, gpio_writes_read_effects, gpio_writes_log_if_failed,
    gpio_writes]

/-! ## The file operations: claims -/

/-- C4 (payload layout).  The client is live, `copy_to_user` copies everything, and a block
read that succeeds returns as many bytes as were asked for.  Then for every combination of
success and failure of the four block reads `bme280_read` returns 40 and delivers 40
bytes, of which bytes [0:24], [24:25], [25:32] and [32:40] are the bytes returned by the
reads of registers 0x88 (24 bytes), 0xA1 (1 byte), 0xE1 (7 bytes) and 0xF7 (8 bytes) when
that read succeeded and are all zero when it failed. -/
theorem read_payload_layout (gpioLED : Nat) (bus : i2c_client → Nat → Nat → smbus_result)
    (c : i2c_client) (buf_length : Nat)
    (hlen : ∀ command length block,
      bus c command length = smbus_result.done block → block.length = length) :
    ∃ r, bme280_read gpioLED { block_read := bus, not_copied := 0 }
        { i2c_client := some c } buf_length = Except.ok r ∧
      r.ret = 40 ∧ r.user_buf.length = 40 ∧
      r.user_buf.take 24 =
        (match bus c 0x88 24 with
         | smbus_result.done block => block
         | smbus_result.failed _ => List.replicate 24 0) ∧
      (r.user_buf.drop 24).take 1 =
        (match bus c 0xA1 1 with
         | smbus_result.done block => block
         | smbus_result.failed _ => List.replicate 1 0) ∧
      (r.user_buf.drop 25).take 7 =
        (match bus c 0xE1 7 with
         | smbus_result.done block => block
         | smbus_result.failed _ => List.replicate 7 0) ∧
      (r.user_buf.drop 32).take 8 =
        (match bus c 0xF7 8 with
         | smbus_result.done block => block
         | smbus_result.failed _ => List.replicate 8 0) := by
  refine ⟨_, bme280_read_eq gpioLED _ c buf_length, ?_⟩
  have hw := four_windows _ _ _ _
    (window_length _ 24 (hlen BME280_CAL1_ADDRESS 24))
    (window_length _ 1 (hlen BME280_CAL2_ADDRESS 1))
    (window_length _ 7 (hlen BME280_CAL3_ADDRESS 7))
    (window_length _ 8 (hlen BME280_DATA_ADDRESS 8))
  rw [← assembled_eq bus c hlen] at hw
  have e1 : ∀ (r : smbus_result) (len : Nat),
      (match r with
       | smbus_result.done block => block
       | smbus_result.failed _ => List.replicate len 0) = window r len := by
    intro r len; cases r <;> rfl
  simp only [e1]
  simpa using hw

/-- A bus that answers a read with as many copies of one byte as were asked for returns
the requested number of bytes. -/
theorem mock_bus_length (failing : List Nat) (c : i2c_client) (command length : Nat)
    (block : List u8) (h : mock_bus failing c command length = smbus_result.done block) :
    block.length = length := by
  unfold mock_bus at h
  split_ifs at h <;> cases h <;> exact List.length_replicate _ _

/-- Witness for C4, the failed read of register 0xA1 of the specification: byte 24 is
zero, the other windows hold the bytes read, 40 is returned. -/
theorem read_payload_layout_witness :
    ∃ r, bme280_read 23 { block_read := mock_bus [0xA1], not_copied := 0 }
        { i2c_client := some ⟨1, 0x76⟩ } 40 = Except.ok r ∧
      r.ret = 40 ∧ r.user_buf.length = 40 ∧
      r.user_buf.take 24 = List.replicate 24 0x11 ∧
      (r.user_buf.drop 24).take 1 = [0] ∧
      (r.user_buf.drop 25).take 7 = List.replicate 7 0x33 ∧
      (r.user_buf.drop 32).take 8 = List.replicate 8 0x44 :=
  read_payload_layout 23 (mock_bus [0xA1]) ⟨1, 0x76⟩ 40 (mock_bus_length [0xA1] ⟨1, 0x76⟩)

/-- C5 (return value).  With a live client, for every combination of block-read outcomes
and every count `copy_to_user` reports, `bme280_read` returns 40 when the count is zero
and 0 when it is not; the block reads do not enter the return value, so a failed block
read together with a failed copy gives 0. -/
theorem read_return_value (gpioLED : Nat) (env : ReadEnv) (c : i2c_client)
    (buf_length : Nat) :
    ∃ r, bme280_read gpioLED env { i2c_client := some c } buf_length = Except.ok r ∧
      r.ret = (if env.not_copied = 0 then 40 else 0) := by
  refine ⟨_, bme280_read_eq gpioLED env c buf_length, ?_⟩
  by_cases h : env.not_copied = 0
  · simp [h]
  · have hv : env.not_copied.val ≠ 0 := fun hv => h (Fin.ext hv)
    simp [h, hv]

/-- C6 (LED bracket), the code on the failing path.  Whatever the block reads do, when
`copy_to_user` reports a non-zero count (`k + 1` bytes not copied) `bme280_read` returns 0
from inside the `if`: the LED line has been written once, with 1, and is high when the call
returns, though it was low when the call started. -/
theorem read_copy_failure_leaves_led_high (gpioLED : Nat)
    (bus : i2c_client → Nat → Nat → smbus_result) (c : i2c_client) (k : Fin 40)
    (buf_length : Nat) :
    ∃ r, bme280_read gpioLED { block_read := bus, not_copied := k.succ }
        { i2c_client := some c } buf_length = Except.ok r ∧
      r.ret = 0 ∧ gpio_writes gpioLED r.effects = [1] ∧
      gpio_level gpioLED 0 r.effects = 1 := by
  refine ⟨_, bme280_read_eq gpioLED _ c buf_length, ?_⟩
  simp [gpio_level, gpio_writes_append, gpio_writes_read_effects, gpio_writes_log_if_failed,
    gpio_writes]

/-- With a client, `bme280_open` returns 0 and keeps the client. -/
theorem open_with_client_returns_zero (c : i2c_client)
    (write_byte : i2c_client → Nat → Nat → Int) :
    ∃ r, bme280_open { new_device := some c, write_byte := write_byte } = Except.ok r ∧
      r.ret = 0 ∧ r.private_data.i2c_client = some c :=
  ⟨_, rfl, rfl, rfl⟩

/-- C7 (configuration on open).  With a client, whatever status each register write
returns, `bme280_open` returns 0, keeps the client in the handle, and its register writes
are exactly (0xF2, 0x02) then (0xF4, 0x49), in this order. -/
theorem open_issues_two_writes (c : i2c_client) (write_byte : i2c_client → Nat → Nat → Int) :
    ∃ r, bme280_open { new_device := some c, write_byte := write_byte } = Except.ok r ∧
      r.ret = 0 ∧ r.private_data.i2c_client = some c ∧
      i2c_writes r.effects = [(0xF2, 0x02), (0xF4, 0x49)] := by
  refine ⟨_, rfl, rfl, rfl, ?_⟩
  simp only [i2c_writes_append]
  split <;> split <;> rfl

/-- C8 (client instantiation failure), the code at the failing input.  When
`i2c_new_device` returns NULL, `bme280_open` does not return an error: it stores the NULL
client and hands it to `i2c_smbus_write_byte_data`, which dereferences it.  No path of
`bme280_open` returns anything but 0. -/
theorem open_null_client_no_error (write_byte : i2c_client → Nat → Nat → Int) :
    bme280_open { new_device := none, write_byte := write_byte } =
      Except.error Fault.null_dereference ∧
    ∀ (env : OpenEnv) (r : OpenResult), bme280_open env = Except.ok r → r.ret = 0 := by
  refine ⟨rfl, ?_⟩
  intro env r h
  obtain ⟨nd, wb⟩ := env
  cases nd with
  | none => cases h
  | some c =>
    obtain ⟨r1, h1, h2, _⟩ := open_with_client_returns_zero c wb
    rw [h1] at h
    cases h
    exact h2

/-! ## Attribute text -/

theorem digit_char_toNat (d : Nat) (h : d < 10) : (digit_char d).toNat = 48 + d := by
  interval_cases d <;> rfl

theorem dec_digits_rev_lt (fuel : Nat) : ∀ n d, d ∈ dec_digits_rev fuel n → d < 10 := by
  induction fuel with
  | zero => intro n d h; simp [dec_digits_rev] at h
  | succ fuel ih =>
    intro n d h
    simp only [dec_digits_rev, List.mem_cons] at h
    rcases h with h | h
    · omega
    · split at h
      · simp at h
      · exact ih _ _ h

theorem dec_digits_rev_value (fuel : Nat) :
    ∀ n, n < fuel → lsb_value (dec_digits_rev fuel n) = n := by
  induction fuel with
  | zero => intro n h; omega
  | succ fuel ih =>
    intro n h
    simp only [dec_digits_rev, lsb_value]
    split
    · simp only [lsb_value]; omega
    · rw [ih (n / 10) (by omega)]; omega

theorem parse_digits_append (xs ys : List Char) :
    ∀ acc, parse_digits acc (xs ++ ys) = (parse_digits acc xs).bind (fun v => parse_digits v ys) := by
  induction xs with
  | nil => intro acc; rfl
  | cons x rest ih =>
    intro acc
    simp only [List.cons_append, parse_digits]
    split
    · exact ih _
    · rfl

theorem parse_digits_digit_chars (ds : List Nat) (h : ∀ d ∈ ds, d < 10) :
    ∀ acc, parse_digits acc (ds.reverse.map digit_char) =
      some (acc * 10 ^ ds.length + lsb_value ds) := by
  induction ds with
  | nil => intro acc; simp [parse_digits, lsb_value]
  | cons d rest ih =>
    intro acc
    have hd : d < 10 := h d (List.mem_cons_self _ _)
    have hr : ∀ x ∈ rest, x < 10 := fun x hx => h x (List.mem_cons_of_mem _ hx)
    rw [List.reverse_cons, List.map_append, parse_digits_append, ih hr]
    simp only [List.map_cons, List.map_nil, Option.some_bind, parse_digits,
      digit_char_toNat d hd, lsb_value, List.length_cons]
    rw [if_pos (by omega)]
    congr 1
    rw [pow_succ]
    have e : 48 + d - 48 = d := by omega
    rw [e]
    ring

/-- Every character `%d` writes is the minus sign or a digit. -/
theorem format_d_chars (x : Int) (ch : Char) (h : ch ∈ format_d x) :
    ch = '-' ∨ (48 ≤ ch.toNat ∧ ch.toNat ≤ 57) := by
  unfold format_d at h
  rw [List.mem_append] at h
  rcases h with h | h
  · split at h
    · left; simpa using h
    · simp at h
  · right
    rw [List.mem_map] at h
    obtain ⟨d, hd, rfl⟩ := h
    have hlt := dec_digits_rev_lt _ _ d (List.mem_reverse.mp hd)
    rw [digit_char_toNat d hlt]
    omega

/-- Reading back what `%d` wrote gives the number. -/
theorem parse_decimal_format_d (x : Int) : parse_decimal (format_d x) = some x := by
  have hval := dec_digits_rev_value (x.natAbs + 1) x.natAbs (by omega)
  have hlt := dec_digits_rev_lt (x.natAbs + 1) x.natAbs
  have hparse := parse_digits_digit_chars _ hlt 0
  rw [hval, Nat.zero_mul, Nat.zero_add] at hparse
  have hne : (dec_digits_rev (x.natAbs + 1) x.natAbs).reverse.map digit_char ≠ [] := by
    simp [dec_digits_rev]
  unfold format_d
  by_cases hx : x < 0
  · rw [if_pos hx]
    simp only [List.singleton_append, parse_decimal, if_true]
    have hemp : ((dec_digits_rev (x.natAbs + 1) x.natAbs).reverse.map digit_char).isEmpty
        = false := by
      cases hc : (dec_digits_rev (x.natAbs + 1) x.natAbs).reverse.map digit_char with
      | nil => exact absurd hc hne
      | cons _ _ => rfl
    rw [hemp, hparse]
    simp only [Bool.false_eq_true, if_false]
    congr 1
    rw [Int.ofNat_natAbs_of_nonpos (le_of_lt hx), neg_neg]
  · rw [if_neg hx, List.nil_append]
    cases hc : (dec_digits_rev (x.natAbs + 1) x.natAbs).reverse.map digit_char with
    | nil => exact absurd hc hne
    | cons c0 rest =>
      have hc0 : c0 ∈ format_d x := by
        unfold format_d
        rw [if_neg hx, List.nil_append, hc]
        exact List.mem_cons_self _ _
      have hdash : c0 ≠ '-' := by
        rcases format_d_chars x c0 hc0 with h | h
        · exfalso
          unfold format_d at hc0
          rw [if_neg hx, List.nil_append, List.mem_map] at hc0
          obtain ⟨d, hd, hd2⟩ := hc0
          have hlt2 := dec_digits_rev_lt _ _ d (List.mem_reverse.mp hd)
          have ht := digit_char_toNat d hlt2
          rw [hd2, h] at ht
          have : ('-' : Char).toNat = 45 := rfl
          omega
        · intro he
          rw [he] at h
          have : ('-' : Char).toNat = 45 := rfl
          omega
      rw [hc] at hparse
      simp only [parse_decimal, if_neg hdash, hparse]
      congr 1
      exact Int.natAbs_of_nonneg (not_lt.mp hx)

/-- The first accepted edge after loading halves the period to 1000. -/
theorem first_accepted_edge_period (a : Arch) (t0 now : timespec)
    (h : (period_irq_handler a now (HandlerState.init t0)).1 = irqreturn.IRQ_HANDLED) :
    (period_irq_handler a now (HandlerState.init t0)).2.period_ms = 1000 := by
  by_cases hq : diff_ms a (timespec_sub a now (HandlerState.init t0).ts_last) < 250
  · rw [handler_rejects a now _ hq] at h
    cases h
  · rw [(handler_accepts a now _ hq).2.2.2]
    show (if (int_wrap (0 + 1)).tmod 4 ≠ 0 then (2000 : Int).tdiv 2 else 2000) = 1000
    decide

/-- C10 (attribute format).  For every value of `period_ms`, `period_ms_show` writes the
`%d` text of the value followed by a newline: the last character is a newline, there is
no other newline, reading the text before the newline as a decimal integer gives
`period_ms` back, and the return value is the number of characters written.  After one
accepted edge from the state of a freshly loaded module the text is "1000\n". -/
theorem period_ms_show_roundtrip (p : Int) :
    (period_ms_show p).2 = format_d p ++ ['\n'] ∧
    (period_ms_show p).2.getLast? = some '\n' ∧
    '\n' ∉ (period_ms_show p).2.dropLast ∧
    parse_decimal (period_ms_show p).2.dropLast = some p ∧
    (period_ms_show p).1 = ((period_ms_show p).2.length : Int) ∧
    (∀ (a : Arch) (t0 now : timespec),
      (period_irq_handler a now (HandlerState.init t0)).1 = irqreturn.IRQ_HANDLED →
        (period_ms_show (period_irq_handler a now (HandlerState.init t0)).2.period_ms).2 =
          ['1', '0', '0', '0', '\n']) := by
  have hdrop : (period_ms_show p).2.dropLast = format_d p := by
    simp [period_ms_show]
  refine ⟨rfl, by simp [period_ms_show], ?_, ?_, rfl, ?_⟩
  · rw [hdrop]
    intro hmem
    rcases format_d_chars p _ hmem with h | h
    · exact absurd h (by decide)
    · have : ('\n' : Char).toNat = 10 := rfl
      omega
  · rw [hdrop]
    exact parse_decimal_format_d p
  · intro a t0 now h
    rw [first_accepted_edge_period a t0 now h]
    decide

/-- Witness for C10: the attribute text for 1000 and for the state after the accepted
edge at 1000 ms. -/
theorem period_ms_show_roundtrip_witness :
    parse_decimal (period_ms_show 1000).2.dropLast = some 1000 ∧
    (period_ms_show (period_irq_handler Arch.ilp32 (at_ms 1000)
      (HandlerState.init (at_ms 0))).2.period_ms).2 = ['1', '0', '0', '0', '\n'] :=
  ⟨(period_ms_show_roundtrip 1000).2.2.2.1,
   (period_ms_show_roundtrip 1000).2.2.2.2.2 Arch.ilp32 (at_ms 0) (at_ms 1000) (by decide)⟩

/-! ## Scenarios of the specification -/

/-- Debounce scenario: loaded at 0 ms, edges at 1000, 1100 and 1300 ms.  Two edges are
accepted, the counter is 2, the period is 500. -/
theorem scenario_debounce (a : Arch) :
    accepted_edges a [at_ms 1000, at_ms 1100, at_ms 1300] (HandlerState.init (at_ms 0)) = 2 ∧
    (run_edges a [at_ms 1000, at_ms 1100, at_ms 1300]
      (HandlerState.init (at_ms 0))).button_pressed = 2 ∧
    (run_edges a [at_ms 1000, at_ms 1100, at_ms 1300]
      (HandlerState.init (at_ms 0))).period_ms = 500 := by
  cases a <;> decide

/-- Full cycle: four accepted edges one second apart take the period through
1000, 500, 250 and back to 2000. -/
theorem scenario_full_cycle (a : Arch) :
    [[at_ms 1000], [at_ms 1000, at_ms 2000], [at_ms 1000, at_ms 2000, at_ms 3000],
      [at_ms 1000, at_ms 2000, at_ms 3000, at_ms 4000]].map
        (fun nows => (run_edges a nows (HandlerState.init (at_ms 0))).period_ms) =
      [1000, 500, 250, 2000] := by
  cases a <;> decide

/-- Happy path and copy failure: with all reads succeeding the payload is
`11×24 ∥ 22 ∥ 33×7 ∥ 44×8` and 40 is returned; with 5 bytes not copied 0 is returned. -/
theorem scenario_read :
    (bme280_read 23 { block_read := mock_bus [], not_copied := 0 }
        { i2c_client := some ⟨1, 0x76⟩ } 40).map (fun r => (r.ret, r.user_buf)) =
      Except.ok (40, List.replicate 24 0x11 ++ [0x22] ++ List.replicate 7 0x33
        ++ List.replicate 8 0x44) ∧
    (bme280_read 23 { block_read := mock_bus [], not_copied := 5 }
        { i2c_client := some ⟨1, 0x76⟩ } 40).map (fun r => r.ret) = Except.ok 0 :=
  ⟨rfl, rfl⟩

end BME280
